import Mathlib

/-!
Shallow embedding of the task-manager GUI application core (src/main.rs):
the project store, the selection and form state, the top-level
Loading/Loaded application sum type, and the message-dispatch function
`App.update`.  Machine identifiers (Uuid) are modelled as `Nat`; fallible
or panicking paths return `Option` (`none` models a process abort).
The persistence backend is external: the outcome of a write is passed in
as an explicit `Except String Unit` argument, and the outcome of the
initial read as an explicit `Except String ProjectData` argument.
-/

/-- Rust struct `Project` from the `taskmanager::project` crate:
id (opaque unique identifier, modelled as `Nat`), name, description. -/
structure Project where
  id : Nat
  name : String
  description : String
deriving DecidableEq, Repr

/-- Modelled from the spec: the `taskmanager::project` crate that defines
`ProjectData` is not under src/.  Spec 4.1: an ordered collection of
projects, insertion order preserved, ids unique. -/
structure ProjectData where
  projects : List Project
deriving DecidableEq, Repr

/-- Modelled from the spec: full ordered listing of the store (spec 4.1 list). -/
def ProjectData.get_projects (pd : ProjectData) : List Project :=
  pd.projects

/-- Modelled from the spec: a freshly generated id guaranteed distinct from
every existing id (spec 4.1 create); one larger than the maximum id present. -/
def ProjectData.fresh_id (pd : ProjectData) : Nat :=
  (pd.projects.map Project.id).foldr Nat.max 0 + 1

/-- Modelled from the spec: `create_project` appends a new project with a
fresh id as the new last element (spec 4.1 create). -/
def ProjectData.create_project (pd : ProjectData) (name description : String) : ProjectData :=
  ⟨pd.projects ++ [⟨pd.fresh_id, name, description⟩]⟩

/-- Modelled from the spec: point lookup by id; absent id yields not-found
(spec 4.1 get). -/
def ProjectData.get_project (pd : ProjectData) (i : Nat) : Option Project :=
  pd.projects.find? (fun p => p.id == i)

/-- Field overwrite of the first entry with the given id, leaving the list
unchanged when the id is absent. -/
def updateProjectFields : List Project → Nat → String → String → List Project
  | [], _, _, _ => []
  | p :: ps, i, n, d =>
      if p.id = i then { p with name := n, description := d } :: ps
      else p :: updateProjectFields ps i n d

/-- Modelled from the spec: `get_project_mut` point lookup followed by
in-place field overwrite; no-op when the id is absent (spec 4.1 update). -/
def ProjectData.update_project (pd : ProjectData) (i : Nat) (n d : String) : ProjectData :=
  ⟨updateProjectFields pd.projects i n d⟩

/-- Modelled from the spec: `Project::new` builds a fresh edit-buffer project
value; its id is opaque and is never consulted before `create_project`
assigns a store id, so it is modelled as 0. -/
def Project.new (name description : String) : Project :=
  ⟨0, name, description⟩

/-- Rust struct `ProjectListState`: the list of selected project ids. -/
structure ProjectListState where
  selected_projects : List Nat
deriving DecidableEq, Repr

/-- `ProjectListState::new()`: empty selection. -/
def ProjectListState.new : ProjectListState :=
  ⟨[]⟩

/-- Rust struct `FormFieldState`: per-field validity flag and message. -/
structure FormFieldState where
  is_valid : Bool
  validation_message : String
deriving DecidableEq, Repr

/-- `FormFieldState::new()`: valid, empty message. -/
def FormFieldState.new : FormFieldState :=
  ⟨true, ""⟩

/-- Rust struct `ProjectFormState`: name and description field states. -/
structure ProjectFormState where
  name_field : FormFieldState
  description_field : FormFieldState
deriving DecidableEq, Repr

/-- `ProjectFormState::new()`: both fields fresh. -/
def ProjectFormState.new : ProjectFormState :=
  ⟨FormFieldState.new, FormFieldState.new⟩

/-- Rust enum `Context`: which top-level view is active. -/
inductive Context where
  | projectList
  | newProject
  | editProject
deriving DecidableEq, Repr

/-- Rust struct `AppState`: all five fields are `Option`s, exactly as in the
source. -/
structure AppState where
  context : Option Context
  projects_data : Option ProjectData
  current_project : Option Project
  project_list_state : Option ProjectListState
  project_form_state : Option ProjectFormState
deriving DecidableEq, Repr

/-- `AppState::default()`: every field `None`. -/
def AppState.default : AppState :=
  ⟨none, none, none, none, none⟩

/-- Rust enum `App`: the top-level Loading/Loaded sum type. -/
inductive App where
  | loading
  | loaded (st : AppState)
deriving DecidableEq, Repr

/-- Rust enum `Message`; `AppLoaded` carries `Result<AppState, String>`. -/
inductive Message where
  | appLoaded (r : Except String AppState)
  | appSync
  | newProject
  | editProject (id : Nat)
  | editProjectCancel
  | currentProjectSave
  | currentProjectNameChange (s : String)
  | currentProjectDescriptionChange (s : String)
  | projectListProjectSelected (selected : Bool) (id : Nat)
  | projectListSelectAllProjects (b : Bool)

/-- `AppState::load`, as a function of the outcome of the external
`project::load_data()` read: on success all fields are populated with
Context=ProjectList; on failure the default (all-`None`) state is returned.
Both branches of the Rust function return `Ok`, so the state below is what
the `AppLoaded(Ok(..))` message carries. -/
def AppState.load : Except String ProjectData → AppState
  | .ok pd =>
      ⟨some Context.projectList, some pd, none,
        some ProjectListState.new, some ProjectFormState.new⟩
  | .error _ => AppState.default

/-- `AppState::save`, as a function of the outcome `w` of the external
`project::write_data` call.  The Rust body first evaluates
`self.projects_data.as_ref().unwrap()`: when `projects_data` is `None`
this panics, modelled as `none`.  Otherwise both the `Ok` and the `Err`
arm of the write result return `Ok(())`. -/
def AppState.save (s : AppState) (w : Except String Unit) : Option (Except String Unit) :=
  match s.projects_data with
  | none => none
  | some _ =>
      match w with
      | .ok _ => some (.ok ())
      | .error _ => some (.ok ())

/-- `AppState::get_projects`: the store listing, empty when no store. -/
def AppState.get_projects (s : AppState) : List Project :=
  match s.projects_data with
  | none => []
  | some pd => pd.get_projects

/-- `AppState::save_current_project`: commits the edit buffer into the store
(create under `NewProject`, point update under `EditProject`), only when the
buffer, the store and the context are all present.  It does not clear the
buffer and does not change the context. -/
def AppState.save_current_project (s : AppState) : AppState :=
  match s.current_project with
  | none => s
  | some cp =>
      match s.projects_data with
      | none => s
      | some pd =>
          match s.context with
          | none => s
          | some Context.newProject =>
              { s with projects_data := some (pd.create_project cp.name cp.description) }
          | some Context.editProject =>
              { s with projects_data := some (pd.update_project cp.id cp.name cp.description) }
          | some Context.projectList => s

/-- `AppState::is_project_selected`: membership of the id in the selection
list; `false` when `project_list_state` is `None`. -/
def AppState.is_project_selected (s : AppState) (i : Nat) : Bool :=
  match s.project_list_state with
  | none => false
  | some pls => pls.selected_projects.contains i

/-- `AppState::get_selected_project_ids`: store ids filtered by selection. -/
def AppState.get_selected_project_ids (s : AppState) : List Nat :=
  (s.get_projects.map Project.id).filter (fun i => s.is_project_selected i)

/-- The `all_projects_selected` boolean computed in `AppState::project_list`
(src/main.rs line 277): selected-id count equals store count. -/
def AppState.all_projects_selected (s : AppState) : Bool :=
  s.get_selected_project_ids.length == s.get_projects.length

/-- `App::update`.  `w` is the outcome of any persistence write performed
during the step (only `AppSync` consults it); the result is `none` when the
step panics (the `unwrap`s in the `AppSync` arm), otherwise `some` of the
state after the step. -/
def App.update : App → Message → Except String Unit → Option App
  | App.loading, m, _ =>
      match m with
      | .appLoaded (.ok st) =>
          some (App.loaded
            { AppState.default with
                projects_data := st.projects_data,
                context := some Context.projectList })
      | .appLoaded (.error _) => some (App.loaded AppState.default)
      | _ => some App.loading
  | App.loaded st, m, w =>
      match m with
      | .appSync =>
          match st.save w with
          | none => none
          | some (.ok _) => some (App.loaded st)
          | some (.error _) => none
      | .newProject =>
          some (App.loaded
            { st with
                current_project := some (Project.new "" ""),
                project_form_state := some ProjectFormState.new,
                context := some Context.newProject })
      | .editProject i =>
          match st.projects_data with
          | none => some (App.loaded st)
          | some pd =>
              some (App.loaded
                { st with
                    current_project := pd.get_project i,
                    project_form_state := some ProjectFormState.new,
                    context := some Context.editProject })
      | .editProjectCancel =>
          some (App.loaded
            { st with current_project := none, context := some Context.projectList })
      | .currentProjectNameChange t =>
          match st.current_project with
          | none => some (App.loaded st)
          | some p =>
              let form :=
                match st.project_form_state with
                | none => none
                | some f =>
                    some { f with
                      name_field :=
                        if t.length = 0 then ⟨false, "Name is required"⟩
                        else ⟨true, ""⟩ }
              some (App.loaded
                { st with
                    current_project := some { p with name := t },
                    project_form_state := form })
      | .currentProjectDescriptionChange t =>
          match st.current_project with
          | none => some (App.loaded st)
          | some p =>
              some (App.loaded { st with current_project := some { p with description := t } })
      | .currentProjectSave => some (App.loaded st.save_current_project)
      | .projectListProjectSelected sel i =>
          match st.projects_data with
          | none => some (App.loaded st)
          | some _ =>
              match st.project_list_state with
              | none => some (App.loaded st)
              | some pls =>
                  some (App.loaded
                    { st with
                        project_list_state :=
                          some ⟨if sel then pls.selected_projects ++ [i]
                                else pls.selected_projects.filter (fun j => j ≠ i)⟩ })
      | .projectListSelectAllProjects sel =>
          let ids := if sel then st.get_projects.map Project.id else []
          match st.project_list_state with
          | none => some (App.loaded st)
          | some _ =>
              some (App.loaded { st with project_list_state := some ⟨ids⟩ })
      | .appLoaded _ => some (App.loaded st)

/-- Processing a sequence of messages, each paired with the outcome of any
write it performs; the whole run aborts (`none`) as soon as one step does. -/
def App.run : App → List (Message × Except String Unit) → Option App
  | a, [] => some a
  | a, (m, w) :: rest =>
      match a.update m w with
      | none => none
      | some a' => a'.run rest

/-- A Ready state is reachable when some message trace starting from the
initial `Loading` state ends in it. -/
def Reachable (s : AppState) : Prop :=
  ∃ tr : List (Message × Except String Unit),
    App.loading.run tr = some (App.loaded s)

/-! Concrete states and traces used in counterexamples and witnesses. -/

/-- The Ready state the application enters after a failed load: `load`
returns `Ok(default)` whose `projects_data` is `None`, and the
`AppLoaded(Ok(..))` handler then forces `context := Some(ProjectList)`. -/
def loadFailedState : AppState :=
  ⟨some Context.projectList, none, none, none, none⟩

/-- Trace delivering a failed-load completion to the initial state. -/
def loadFailTrace : List (Message × Except String Unit) :=
  [(Message.appLoaded (Except.ok (AppState.load (Except.error "read failed"))), Except.ok ())]

/-! C9 -/

/-- C9: while the application is in the Loading state, every message other
than `AppLoaded` leaves the application exactly as it was (still Loading). -/
theorem C9_loading_ignores_other_messages (m : Message) (w : Except String Unit)
    (h : ∀ r, m ≠ Message.appLoaded r) :
    App.loading.update m w = some App.loading := by
  cases m with
  | appLoaded r => exact absurd rfl (h r)
  | appSync => rfl
  | newProject => rfl
  | editProject i => rfl
  | editProjectCancel => rfl
  | currentProjectSave => rfl
  | currentProjectNameChange t => rfl
  | currentProjectDescriptionChange t => rfl
  | projectListProjectSelected sel i => rfl
  | projectListSelectAllProjects b => rfl

/-- Witness for C9 at the `AppSync` message. -/
theorem C9_witness : App.loading.update Message.appSync (Except.ok ()) = some App.loading :=
  C9_loading_ignores_other_messages Message.appSync (Except.ok ())
    (fun _ h => Message.noConfusion h)

/-! C10 -/

/-- C10: whenever `projects_data` is present, `AppState::save` returns
`Ok(())` whatever the outcome of the underlying persistence write, so a
write failure is never reported to the caller. -/
theorem C10_save_always_ok (s : AppState) (pd : ProjectData) (w : Except String Unit)
    (h : s.projects_data = some pd) :
    s.save w = some (Except.ok ()) := by
  unfold AppState.save
  rw [h]
  cases w <;> rfl

/-- Witness for C10: a state holding an empty store, with a failing write. -/
theorem C10_witness :
    (AppState.load (Except.ok ⟨[]⟩)).save (Except.error "disk full")
      = some (Except.ok ()) :=
  C10_save_always_ok _ ⟨[]⟩ _ rfl

/-! C2 -/

/-- C2: the Ready state produced by a failed load is reachable, and
processing `AppSync` there aborts the process: `save` evaluates
`self.projects_data.as_ref().unwrap()` on `None`.  This contradicts the
claim that no execution path through the Sync handler panics. -/
theorem C2_sync_panics_after_load_failure :
    App.loading.run loadFailTrace = some (App.loaded loadFailedState) ∧
    (App.loaded loadFailedState).update Message.appSync (Except.ok ()) = none :=
  ⟨rfl, rfl⟩

/-! C1 -/

/-- Ready state in the middle of creating a project: NewProject context,
empty store, filled edit buffer. -/
def c1EditingState : AppState :=
  ⟨some Context.newProject, some ⟨[]⟩, some ⟨0, "Website", "Rebuild"⟩, none,
    some ProjectFormState.new⟩

/-- The state `c1EditingState` steps to on `CurrentProjectSave`. -/
def c1AfterSave : AppState :=
  ⟨some Context.newProject, some ⟨[⟨1, "Website", "Rebuild"⟩]⟩,
    some ⟨0, "Website", "Rebuild"⟩, none, some ProjectFormState.new⟩

/-- Like `c1EditingState`, but with no store loaded. -/
def c1NoStoreState : AppState :=
  ⟨some Context.newProject, none, some ⟨0, "Website", "Rebuild"⟩, none,
    some ProjectFormState.new⟩

/-- C1 counterexample: after `CurrentProjectSave` the project is committed,
but the edit buffer is still present and the context is still NewProject —
not cleared to `None` and ProjectList as claimed; and with no store present
the message changes nothing at all (no commit either). -/
theorem C1_counterexample :
    (App.loaded c1EditingState).update Message.currentProjectSave (Except.ok ())
      = some (App.loaded c1AfterSave) ∧
    c1AfterSave.current_project ≠ none ∧
    c1AfterSave.context ≠ some Context.projectList ∧
    (App.loaded c1NoStoreState).update Message.currentProjectSave (Except.ok ())
      = some (App.loaded c1NoStoreState) :=
  ⟨rfl, by decide, by decide, rfl⟩

/-- C1 amended: when the buffer and a store are present, `CurrentProjectSave`
commits the buffer (create under NewProject, point update of the buffered id
under EditProject) but every other field is unchanged: the edit buffer stays
present and the context keeps its value. -/
theorem C1_amended_saveEdit (s : AppState) (cp : Project) (pd : ProjectData)
    (w : Except String Unit)
    (hcp : s.current_project = some cp) (hpd : s.projects_data = some pd) :
    (s.context = some Context.newProject →
      (App.loaded s).update Message.currentProjectSave w
        = some (App.loaded
            { s with projects_data := some (pd.create_project cp.name cp.description) })) ∧
    (s.context = some Context.editProject →
      (App.loaded s).update Message.currentProjectSave w
        = some (App.loaded
            { s with projects_data := some (pd.update_project cp.id cp.name cp.description) })) := by
  constructor <;> intro hctx <;>
    simp [App.update, AppState.save_current_project, hcp, hpd, hctx]

/-- Witness for C1 amended, at the create case of `c1EditingState`. -/
theorem C1_amended_witness :
    (App.loaded c1EditingState).update Message.currentProjectSave (Except.ok ())
      = some (App.loaded
          { c1EditingState with
              projects_data := some (ProjectData.create_project ⟨[]⟩ "Website" "Rebuild") }) :=
  (C1_amended_saveEdit c1EditingState ⟨0, "Website", "Rebuild"⟩ ⟨[]⟩ (Except.ok ())
    rfl rfl).1 rfl

/-! C3 -/

/-- Trace: the load fails, then the user creates a project and saves it. -/
def createAfterLoadFail : List (Message × Except String Unit) :=
  [(Message.appLoaded (Except.ok (AppState.load (Except.error "corrupt"))), Except.ok ()),
   (Message.newProject, Except.ok ()),
   (Message.currentProjectNameChange "Website", Except.ok ()),
   (Message.currentProjectSave, Except.ok ())]

/-- Trace: the load succeeds with an empty store, then the same user actions. -/
def createAfterEmptyLoad : List (Message × Except String Unit) :=
  [(Message.appLoaded (Except.ok (AppState.load (Except.ok ⟨[]⟩))), Except.ok ()),
   (Message.newProject, Except.ok ()),
   (Message.currentProjectNameChange "Website", Except.ok ()),
   (Message.currentProjectSave, Except.ok ())]

/-- End state of `createAfterLoadFail`: still no store, nothing created. -/
def afterLoadFailCreate : AppState :=
  ⟨some Context.newProject, none, some ⟨0, "Website", ""⟩, none, some ProjectFormState.new⟩

/-- End state of `createAfterEmptyLoad`: one project committed. -/
def afterEmptyLoadCreate : AppState :=
  ⟨some Context.newProject, some ⟨[⟨1, "Website", ""⟩]⟩, some ⟨0, "Website", ""⟩, none,
    some ProjectFormState.new⟩

/-- C3 counterexample: after a load failure the application does not hold an
empty store but no store at all, and a subsequent create is silently dropped;
the identical user actions on a genuinely empty store commit one project. -/
theorem C3_counterexample :
    App.loading.run createAfterLoadFail = some (App.loaded afterLoadFailCreate) ∧
    afterLoadFailCreate.projects_data = none ∧
    afterLoadFailCreate.get_projects.length = 0 ∧
    App.loading.run createAfterEmptyLoad = some (App.loaded afterEmptyLoadCreate) ∧
    afterEmptyLoadCreate.get_projects.length = 1 :=
  ⟨rfl, rfl, rfl, rfl, rfl⟩

/-- C3 amended: a load failure still takes Loading to Loaded with
Context = ProjectList, no error surfaced, and `projects_data = None` — an
absent store that lists as zero projects but on which create and update
(both routed through `save_current_project`) are no-ops, unlike an actual
empty store. -/
theorem C3_amended_load_failure (e : String) (w : Except String Unit) :
    App.loading.update (Message.appLoaded (Except.ok (AppState.load (Except.error e)))) w
      = some (App.loaded loadFailedState) ∧
    loadFailedState.context = some Context.projectList ∧
    loadFailedState.projects_data = none ∧
    loadFailedState.get_projects = [] ∧
    (∀ s : AppState, s.projects_data = none → s.save_current_project = s) :=
  ⟨rfl, rfl, rfl, rfl, by
    intro s h
    unfold AppState.save_current_project
    rw [h]
    cases s.current_project <;> rfl⟩

/-- Witness for C3 amended at a concrete error string and write outcome. -/
theorem C3_amended_witness :
    App.loading.update
        (Message.appLoaded (Except.ok (AppState.load (Except.error "corrupt"))))
        (Except.ok ())
      = some (App.loaded loadFailedState) ∧
    loadFailedState.projects_data = none :=
  ⟨(C3_amended_load_failure "corrupt" (Except.ok ())).1,
   (C3_amended_load_failure "corrupt" (Except.ok ())).2.2.1⟩

/-! C5 -/

/-- Ready state showing the project list over an empty store. -/
def c5Pre : AppState :=
  ⟨some Context.projectList, some ⟨[]⟩, none, none, none⟩

/-- The state `c5Pre` steps to on `EditProject(5)`, an absent id. -/
def c5Post : AppState :=
  ⟨some Context.editProject, some ⟨[]⟩, none, none, some ProjectFormState.new⟩

/-- C5 counterexample: `EditProject(5)` with id 5 absent from the store is
not a no-op — the context flips to EditProject and the form state is reset,
so the state changes even though no edit buffer opens. -/
theorem C5_counterexample :
    ProjectData.get_project ⟨[]⟩ 5 = none ∧
    (App.loaded c5Pre).update (Message.editProject 5) (Except.ok ())
      = some (App.loaded c5Post) ∧
    c5Post ≠ c5Pre :=
  ⟨rfl, rfl, by decide⟩

/-- C5 amended: with a store present and the id absent, `EditProject(id)`
sets `current_project := None`, resets the form state and sets
Context := EditProject (no edit session opens, but the state does change);
only with no store at all is the message a true no-op. -/
theorem C5_amended_editProject_absent :
    (∀ (s : AppState) (pd : ProjectData) (i : Nat) (w : Except String Unit),
      s.projects_data = some pd → pd.get_project i = none →
      (App.loaded s).update (Message.editProject i) w
        = some (App.loaded
            { s with
                current_project := none,
                project_form_state := some ProjectFormState.new,
                context := some Context.editProject })) ∧
    (∀ (s : AppState) (i : Nat) (w : Except String Unit),
      s.projects_data = none →
      (App.loaded s).update (Message.editProject i) w = some (App.loaded s)) := by
  constructor
  · intro s pd i w hpd habs
    simp [App.update, hpd, habs]
  · intro s i w hpd
    simp [App.update, hpd]

/-- Witness for C5 amended at `c5Pre` and the absent id 5. -/
theorem C5_amended_witness :
    (App.loaded c5Pre).update (Message.editProject 5) (Except.ok ())
      = some (App.loaded
          { c5Pre with
              current_project := none,
              project_form_state := some ProjectFormState.new,
              context := some Context.editProject }) :=
  C5_amended_editProject_absent.1 c5Pre ⟨[]⟩ 5 (Except.ok ()) rfl rfl

/-! C6 -/

/-- One-project store used in the selection counterexamples. -/
def c6Store : ProjectData :=
  ⟨[⟨1, "alpha", "beta"⟩]⟩

/-- The reachable Ready state holding `c6Store`; the `AppLoaded(Ok(..))`
handler rebuilds every field except `projects_data` from the default, so
`project_list_state` is `None`. -/
def c6State : AppState :=
  ⟨some Context.projectList, some c6Store, none, none, none⟩

/-- C6 counterexample: on a reachable state whose store holds id 1,
`ToggleSelectAll(true)` changes nothing — `project_list_state` is `None`, so
afterwards id 1 is still not selected, and the selection set is not the set
of all store ids. -/
theorem C6_counterexample :
    App.loading.run
        [(Message.appLoaded (Except.ok (AppState.load (Except.ok c6Store))), Except.ok ()),
         (Message.projectListSelectAllProjects true, Except.ok ())]
      = some (App.loaded c6State) ∧
    c6State.get_projects.map Project.id = [1] ∧
    c6State.is_project_selected 1 = false :=
  ⟨rfl, rfl, rfl⟩

/-- C6 amended: when `project_list_state` is present, `ToggleSelectAll(true)`
sets the selection list to the list of all ids currently in the store and
`ToggleSelectAll(false)` empties it; with `project_list_state` absent (the
case of every reachable state) the message leaves the state unchanged. -/
theorem C6_amended_selectAll (s : AppState) (pls : ProjectListState) (w : Except String Unit)
    (h : s.project_list_state = some pls) :
    (App.loaded s).update (Message.projectListSelectAllProjects true) w
      = some (App.loaded
          { s with project_list_state := some ⟨s.get_projects.map Project.id⟩ }) ∧
    (App.loaded s).update (Message.projectListSelectAllProjects false) w
      = some (App.loaded { s with project_list_state := some ⟨[]⟩ }) := by
  constructor <;> simp [App.update, h]

/-- Ready state like `c6State` but with an (unreachable) empty selection
present. -/
def c6PlsState : AppState :=
  ⟨some Context.projectList, some c6Store, none, some ⟨[]⟩, none⟩

/-- Witness for C6 amended at `c6PlsState`. -/
theorem C6_amended_witness :
    (App.loaded c6PlsState).update (Message.projectListSelectAllProjects true) (Except.ok ())
      = some (App.loaded
          { c6PlsState with
              project_list_state := some ⟨c6PlsState.get_projects.map Project.id⟩ }) :=
  (C6_amended_selectAll c6PlsState ⟨[]⟩ (Except.ok ()) rfl).1

/-! Reachability invariant: in every reachable Ready state the selection
state is absent, and a present edit buffer implies a present form state. -/

/-- Invariant maintained by every reachable Ready state. -/
def StateInv (s : AppState) : Prop :=
  s.project_list_state = none ∧ (s.current_project.isSome → s.project_form_state.isSome)

/-- `save_current_project` can only change `projects_data`; the other four
fields are untouched in every branch. -/
theorem save_current_project_frame (s : AppState) :
    s.save_current_project.project_list_state = s.project_list_state ∧
    s.save_current_project.current_project = s.current_project ∧
    s.save_current_project.project_form_state = s.project_form_state ∧
    s.save_current_project.context = s.context := by
  unfold AppState.save_current_project
  repeat' split
  all_goals exact ⟨rfl, rfl, rfl, rfl⟩

/-- A step out of the Loading state lands either back in Loading or in a
Ready state satisfying the invariant. -/
theorem loading_update_inv (m : Message) (w : Except String Unit) (a : App)
    (h : App.loading.update m w = some a) :
    a = App.loading ∨ ∃ s, a = App.loaded s ∧ StateInv s := by
  cases m with
  | appLoaded r =>
    cases r with
    | ok st =>
      right
      refine ⟨⟨some Context.projectList, st.projects_data, none, none, none⟩,
        (Option.some.inj h).symm, rfl, ?_⟩
      intro hc
      simp at hc
    | error e =>
      right
      refine ⟨AppState.default, (Option.some.inj h).symm, rfl, ?_⟩
      intro hc
      simp [AppState.default] at hc
  | appSync => exact Or.inl (Option.some.inj h).symm
  | newProject => exact Or.inl (Option.some.inj h).symm
  | editProject i => exact Or.inl (Option.some.inj h).symm
  | editProjectCancel => exact Or.inl (Option.some.inj h).symm
  | currentProjectSave => exact Or.inl (Option.some.inj h).symm
  | currentProjectNameChange t => exact Or.inl (Option.some.inj h).symm
  | currentProjectDescriptionChange t => exact Or.inl (Option.some.inj h).symm
  | projectListProjectSelected sel i => exact Or.inl (Option.some.inj h).symm
  | projectListSelectAllProjects b => exact Or.inl (Option.some.inj h).symm

/-- A step out of a Ready state satisfying the invariant stays Ready and
preserves the invariant. -/
theorem update_preserves_inv (s : AppState) (m : Message) (w : Except String Unit) (a : App)
    (hinv : StateInv s) (h : (App.loaded s).update m w = some a) :
    ∃ s', a = App.loaded s' ∧ StateInv s' := by
  obtain ⟨hpls, hform⟩ := hinv
  cases m with
  | appLoaded r =>
    exact ⟨s, (Option.some.inj h).symm, hpls, hform⟩
  | appSync =>
    cases hpd : s.projects_data with
    | none =>
      have hred : (App.loaded s).update Message.appSync w = none := by
        simp [App.update, AppState.save, hpd]
      rw [hred] at h
      exact absurd h (by simp)
    | some pd =>
      have hred : (App.loaded s).update Message.appSync w = some (App.loaded s) := by
        cases w <;> simp [App.update, AppState.save, hpd]
      rw [hred] at h
      exact ⟨s, (Option.some.inj h).symm, hpls, hform⟩
  | newProject =>
    refine ⟨_, (Option.some.inj h).symm, hpls, ?_⟩
    intro _
    rfl
  | editProject i =>
    cases hpd : s.projects_data with
    | none =>
      have hred : (App.loaded s).update (Message.editProject i) w = some (App.loaded s) := by
        simp [App.update, hpd]
      rw [hred] at h
      exact ⟨s, (Option.some.inj h).symm, hpls, hform⟩
    | some pd =>
      have hred : (App.loaded s).update (Message.editProject i) w
          = some (App.loaded
              { s with
                  current_project := pd.get_project i,
                  project_form_state := some ProjectFormState.new,
                  context := some Context.editProject }) := by
        simp [App.update, hpd]
      rw [hred] at h
      refine ⟨_, (Option.some.inj h).symm, hpls, ?_⟩
      intro _
      rfl
  | editProjectCancel =>
    refine ⟨_, (Option.some.inj h).symm, hpls, ?_⟩
    intro hc
    simp at hc
  | currentProjectSave =>
    refine ⟨s.save_current_project, (Option.some.inj h).symm, ?_, ?_⟩
    · exact (save_current_project_frame s).1.trans hpls
    · rw [(save_current_project_frame s).2.1, (save_current_project_frame s).2.2.1]
      exact hform
  | currentProjectNameChange t =>
    cases hc : s.current_project with
    | none =>
      have hred : (App.loaded s).update (Message.currentProjectNameChange t) w
          = some (App.loaded s) := by
        simp [App.update, hc]
      rw [hred] at h
      exact ⟨s, (Option.some.inj h).symm, hpls, hform⟩
    | some p =>
      have hf : s.project_form_state.isSome = true := hform (by simp [hc])
      cases hff : s.project_form_state with
      | none => rw [hff] at hf; simp at hf
      | some f =>
        have hred : (App.loaded s).update (Message.currentProjectNameChange t) w
            = some (App.loaded
                { s with
                    current_project := some { p with name := t },
                    project_form_state :=
                      some { f with
                        name_field :=
                          if t.length = 0 then ⟨false, "Name is required"⟩
                          else ⟨true, ""⟩ } }) := by
          simp [App.update, hc, hff]
        rw [hred] at h
        refine ⟨_, (Option.some.inj h).symm, hpls, ?_⟩
        intro _
        rfl
  | currentProjectDescriptionChange t =>
    cases hc : s.current_project with
    | none =>
      have hred : (App.loaded s).update (Message.currentProjectDescriptionChange t) w
          = some (App.loaded s) := by
        simp [App.update, hc]
      rw [hred] at h
      exact ⟨s, (Option.some.inj h).symm, hpls, hform⟩
    | some p =>
      have hred : (App.loaded s).update (Message.currentProjectDescriptionChange t) w
          = some (App.loaded { s with current_project := some { p with description := t } }) := by
        simp [App.update, hc]
      rw [hred] at h
      refine ⟨_, (Option.some.inj h).symm, hpls, ?_⟩
      intro _
      exact hform (by simp [hc])
  | projectListProjectSelected sel i =>
    cases hpd : s.projects_data with
    | none =>
      have hred : (App.loaded s).update (Message.projectListProjectSelected sel i) w
          = some (App.loaded s) := by
        simp [App.update, hpd]
      rw [hred] at h
      exact ⟨s, (Option.some.inj h).symm, hpls, hform⟩
    | some pd =>
      have hred : (App.loaded s).update (Message.projectListProjectSelected sel i) w
          = some (App.loaded s) := by
        simp [App.update, hpd, hpls]
      rw [hred] at h
      exact ⟨s, (Option.some.inj h).symm, hpls, hform⟩
  | projectListSelectAllProjects b =>
    have hred : (App.loaded s).update (Message.projectListSelectAllProjects b) w
        = some (App.loaded s) := by
      simp [App.update, hpls]
    rw [hred] at h
    exact ⟨s, (Option.some.inj h).symm, hpls, hform⟩

/-- Running a trace from Loading, or from a Ready state satisfying the
invariant, only ever ends in Ready states satisfying the invariant. -/
theorem run_inv (tr : List (Message × Except String Unit)) :
    ∀ (a : App) (s : AppState),
      (a = App.loading ∨ ∃ t, a = App.loaded t ∧ StateInv t) →
      a.run tr = some (App.loaded s) → StateInv s := by
  induction tr with
  | nil =>
    intro a s ha h
    simp [App.run] at h
    rcases ha with rfl | ⟨t, rfl, hinv⟩
    · exact App.noConfusion h
    · injection h with h
      exact h ▸ hinv
  | cons p rest ih =>
    intro a s ha h
    obtain ⟨m, w⟩ := p
    rw [App.run] at h
    cases hu : a.update m w with
    | none => rw [hu] at h; simp at h
    | some a' =>
      rw [hu] at h
      simp only at h
      rcases ha with rfl | ⟨t, rfl, hinv⟩
      · exact ih a' s (loading_update_inv m w a' hu) h
      · obtain ⟨s', rfl, hinv'⟩ := update_preserves_inv t m w a' hinv hu
        exact ih _ s (Or.inr ⟨s', rfl, hinv'⟩) h

/-- Every reachable Ready state satisfies the invariant. -/
theorem reachable_inv (s : AppState) (h : Reachable s) : StateInv s := by
  obtain ⟨tr, htr⟩ := h
  exact run_inv tr App.loading s (Or.inl rfl) htr

/-! C4 -/

/-- C4: every Ready state reachable from the initial Loading state has
`project_list_state = None`; consequently both selection messages leave the
entire state unchanged and `is_project_selected` is false for every id. -/
theorem C4_selection_inert (s : AppState) (h : Reachable s) :
    s.project_list_state = none ∧
    (∀ (sel : Bool) (i : Nat) (w : Except String Unit),
      (App.loaded s).update (Message.projectListProjectSelected sel i) w
        = some (App.loaded s)) ∧
    (∀ (b : Bool) (w : Except String Unit),
      (App.loaded s).update (Message.projectListSelectAllProjects b) w
        = some (App.loaded s)) ∧
    (∀ i : Nat, s.is_project_selected i = false) := by
  obtain ⟨hpls, -⟩ := reachable_inv s h
  refine ⟨hpls, ?_, ?_, ?_⟩
  · intro sel i w
    cases hpd : s.projects_data <;> simp [App.update, hpd, hpls]
  · intro b w
    simp [App.update, hpls]
  · intro i
    simp [AppState.is_project_selected, hpls]

/-- Witness for C4 at the reachable state left by a failed load. -/
theorem C4_witness :
    loadFailedState.project_list_state = none ∧
    (App.loaded loadFailedState).update
        (Message.projectListProjectSelected true 1) (Except.ok ())
      = some (App.loaded loadFailedState) ∧
    (App.loaded loadFailedState).update
        (Message.projectListSelectAllProjects true) (Except.ok ())
      = some (App.loaded loadFailedState) ∧
    loadFailedState.is_project_selected 1 = false :=
  ⟨(C4_selection_inert loadFailedState ⟨loadFailTrace, rfl⟩).1,
   (C4_selection_inert loadFailedState ⟨loadFailTrace, rfl⟩).2.1 true 1 (Except.ok ()),
   (C4_selection_inert loadFailedState ⟨loadFailTrace, rfl⟩).2.2.1 true (Except.ok ()),
   (C4_selection_inert loadFailedState ⟨loadFailTrace, rfl⟩).2.2.2 1⟩

/-! C8 -/

/-- A string has length 0 exactly when it is the empty string. -/
theorem string_length_eq_zero_iff (t : String) : t.length = 0 ↔ t = "" := by
  constructor
  · intro h
    cases t with
    | mk data =>
      cases data with
      | nil => rfl
      | cons c cs => simp [String.length] at h
  · intro h
    rw [h]
    rfl

/-- C8: in every reachable Ready state with an edit buffer present, the form
state is present too, and `NameChanged(t)` sets the buffer name to `t` and
re-runs name validation: the name field becomes invalid with message
"Name is required" exactly when `t` is empty, and valid with an empty
message otherwise; nothing else changes. -/
theorem C8_name_change (s : AppState) (p : Project) (t : String) (w : Except String Unit)
    (hr : Reachable s) (hcp : s.current_project = some p) :
    ∃ f : ProjectFormState,
      s.project_form_state = some f ∧
      (App.loaded s).update (Message.currentProjectNameChange t) w
        = some (App.loaded
            { s with
                current_project := some { p with name := t },
                project_form_state :=
                  some { f with
                    name_field :=
                      if t.length = 0 then ⟨false, "Name is required"⟩
                      else ⟨true, ""⟩ } }) ∧
      (t = "" →
        (if t.length = 0 then (⟨false, "Name is required"⟩ : FormFieldState) else ⟨true, ""⟩)
          = ⟨false, "Name is required"⟩) ∧
      (t ≠ "" →
        (if t.length = 0 then (⟨false, "Name is required"⟩ : FormFieldState) else ⟨true, ""⟩)
          = ⟨true, ""⟩) := by
  have hf : s.project_form_state.isSome = true := (reachable_inv s hr).2 (by simp [hcp])
  cases hff : s.project_form_state with
  | none => rw [hff] at hf; simp at hf
  | some f =>
    refine ⟨f, rfl, ?_, ?_, ?_⟩
    · simp [App.update, hcp, hff]
    · intro ht
      subst ht
      rfl
    · intro ht
      rw [if_neg]
      intro hlen
      exact ht ((string_length_eq_zero_iff t).mp hlen)

/-- Reachable Ready state with an open (empty) edit buffer. -/
def c8State : AppState :=
  ⟨some Context.newProject, none, some ⟨0, "", ""⟩, none, some ProjectFormState.new⟩

/-- Trace reaching `c8State`: failed load, then NewProject. -/
def c8Trace : List (Message × Except String Unit) :=
  [(Message.appLoaded (Except.ok (AppState.load (Except.error "read failed"))), Except.ok ()),
   (Message.newProject, Except.ok ())]

/-- Witness for C8 at `c8State` with the empty replacement text. -/
theorem C8_witness :
    ∃ f : ProjectFormState,
      c8State.project_form_state = some f ∧
      (App.loaded c8State).update (Message.currentProjectNameChange "") (Except.ok ())
        = some (App.loaded
            { c8State with
                current_project := some { (⟨0, "", ""⟩ : Project) with name := "" },
                project_form_state :=
                  some { f with
                    name_field :=
                      if ("" : String).length = 0 then ⟨false, "Name is required"⟩
                      else ⟨true, ""⟩ } }) ∧
      (("" : String) = "" →
        (if ("" : String).length = 0 then (⟨false, "Name is required"⟩ : FormFieldState)
         else ⟨true, ""⟩) = ⟨false, "Name is required"⟩) ∧
      (("" : String) ≠ "" →
        (if ("" : String).length = 0 then (⟨false, "Name is required"⟩ : FormFieldState)
         else ⟨true, ""⟩) = ⟨true, ""⟩) :=
  C8_name_change c8State ⟨0, "", ""⟩ "" (Except.ok ()) ⟨c8Trace, rfl⟩ rfl

/-! C7 -/

/-- One `ToggleProjectSelected{id, selected:true}` message per id, all with
the same write outcome. -/
def selectEachMsgs : List Nat → Except String Unit → List (Message × Except String Unit)
  | [], _ => []
  | i :: is, w => (Message.projectListProjectSelected true i, w) :: selectEachMsgs is w

/-- Selecting a list of ids one at a time appends them, in order, to the
selection list, when the store and the selection state are present. -/
theorem run_selectEach (ids : List Nat) :
    ∀ (s : AppState) (pd : ProjectData) (pls : ProjectListState) (w : Except String Unit),
      s.projects_data = some pd → s.project_list_state = some pls →
      (App.loaded s).run (selectEachMsgs ids w)
        = some (App.loaded
            { s with project_list_state := some ⟨pls.selected_projects ++ ids⟩ }) := by
  induction ids with
  | nil =>
    intro s pd pls w hpd hpls
    have hs : ({ s with project_list_state := some ⟨pls.selected_projects ++ []⟩ } : AppState)
        = s := by
      rw [List.append_nil]
      show ({ s with project_list_state := some pls } : AppState) = s
      rw [← hpls]
    rw [hs]
    rfl
  | cons i is ih =>
    intro s pd pls w hpd hpls
    have hstep : (App.loaded s).update (Message.projectListProjectSelected true i) w
        = some (App.loaded
            { s with project_list_state := some ⟨pls.selected_projects ++ [i]⟩ }) := by
      simp [App.update, hpd, hpls]
    have hrun : (App.loaded s).run (selectEachMsgs (i :: is) w)
        = (App.loaded
            { s with project_list_state := some ⟨pls.selected_projects ++ [i]⟩ }).run
            (selectEachMsgs is w) := by
      show (match (App.loaded s).update (Message.projectListProjectSelected true i) w with
            | none => none
            | some a' => a'.run (selectEachMsgs is w)) = _
      rw [hstep]
    rw [hrun]
    rw [ih { s with project_list_state := some ⟨pls.selected_projects ++ [i]⟩ } pd
      ⟨pls.selected_projects ++ [i]⟩ w hpd rfl]
    simp [List.append_assoc]

/-- The store listing of a state whose `projects_data` is present. -/
theorem get_projects_eq (s : AppState) (pd : ProjectData) (h : s.projects_data = some pd) :
    s.get_projects = pd.projects := by
  unfold AppState.get_projects
  rw [h]
  rfl

/-- Selection test of a state whose `project_list_state` is present. -/
theorem is_project_selected_eq (s : AppState) (pls : ProjectListState)
    (h : s.project_list_state = some pls) (i : Nat) :
    s.is_project_selected i = pls.selected_projects.contains i := by
  unfold AppState.is_project_selected
  rw [h]

/-- The all-selected boolean, spelled out over the store list and the
selection list. -/
theorem all_projects_selected_eq (s : AppState) (pd : ProjectData) (pls : ProjectListState)
    (hpd : s.projects_data = some pd) (hpls : s.project_list_state = some pls) :
    s.all_projects_selected
      = (((pd.projects.map Project.id).filter
            (fun i => pls.selected_projects.contains i)).length == pd.projects.length) := by
  unfold AppState.all_projects_selected AppState.get_selected_project_ids
  rw [get_projects_eq s pd hpd]
  simp only [is_project_selected_eq s pls hpls]

/-- C7 counterexample: a reachable Ready state stores one project (N = 1)
but has no selection state, so selecting its single id changes nothing and
the all-selected predicate stays false instead of becoming true. -/
theorem C7_counterexample :
    App.loading.run
        ((Message.appLoaded (Except.ok (AppState.load (Except.ok c6Store))), Except.ok ())
          :: selectEachMsgs [1] (Except.ok ()))
      = some (App.loaded c6State) ∧
    c6State.get_projects.length = 1 ∧
    c6State.all_projects_selected = false :=
  ⟨rfl, rfl, rfl⟩

/-- The all-selected boolean of a fully explicit state, by computation. -/
theorem all_projects_selected_mk (c : Option Context) (pd : ProjectData)
    (cp : Option Project) (l : List Nat) (f : Option ProjectFormState) :
    (AppState.mk c (some pd) cp (some ⟨l⟩) f).all_projects_selected
      = (((pd.projects.map Project.id).filter (fun i => l.contains i)).length
          == pd.projects.length) :=
  rfl

/-- C7 amended: when the selection state is present (and store ids are
distinct, as create guarantees), selecting each of the N store ids in turn
makes the all-selected predicate (selected count == store count) true, and
then deselecting any one of those ids makes it false. -/
theorem C7_amended_select_deselect (s : AppState) (pd : ProjectData) (pls : ProjectListState)
    (w : Except String Unit) (x : Nat)
    (hpd : s.projects_data = some pd) (hpls : s.project_list_state = some pls)
    (hnd : (pd.projects.map Project.id).Nodup) (hx : x ∈ pd.projects.map Project.id) :
    ∃ s₁ s₂ : AppState,
      (App.loaded s).run (selectEachMsgs (pd.projects.map Project.id) w)
        = some (App.loaded s₁) ∧
      s₁.all_projects_selected = true ∧
      (App.loaded s₁).update (Message.projectListProjectSelected false x) w
        = some (App.loaded s₂) ∧
      s₂.all_projects_selected = false := by
  refine ⟨{ s with project_list_state := some ⟨pls.selected_projects ++ pd.projects.map Project.id⟩ }, { s with project_list_state := some ⟨(pls.selected_projects ++ pd.projects.map Project.id).filter (fun j => j ≠ x)⟩ }, ?_, ?_, ?_, ?_⟩
  · exact run_selectEach (pd.projects.map Project.id) s pd pls w hpd hpls
  · rw [hpd, all_projects_selected_mk]
    have hfil : (pd.projects.map Project.id).filter
        (fun i => (pls.selected_projects ++ pd.projects.map Project.id).contains i)
        = pd.projects.map Project.id := by
      apply List.filter_eq_self.mpr
      intro a ha
      simp [ha]
    rw [hfil, List.length_map]
    exact beq_self_eq_true _
  · rw [hpd]
    simp [App.update]
  · rw [hpd, all_projects_selected_mk]
    have hcongr : (pd.projects.map Project.id).filter
        (fun i => ((pls.selected_projects ++ pd.projects.map Project.id).filter
          (fun j => j ≠ x)).contains i)
        = (pd.projects.map Project.id).filter (fun j => j ≠ x) := by
      apply List.filter_congr
      intro a ha
      by_cases hax : a = x
      · subst hax
        simp [List.mem_filter]
      · simp [List.mem_filter, hax, ha]
    have herase : (pd.projects.map Project.id).filter (fun j => j ≠ x)
        = (pd.projects.map Project.id).erase x := by
      simpa using (hnd.erase_eq_filter x).symm
    rw [hcongr, herase, List.length_erase_of_mem hx, List.length_map]
    have hpos : 0 < pd.projects.length := by
      rw [← List.length_map pd.projects Project.id]
      exact List.length_pos.mpr (List.ne_nil_of_mem hx)
    simp only [beq_eq_false_iff_ne, ne_eq]
    omega

/-- Two-project store for the C7 witness. -/
def c7Store : ProjectData :=
  ⟨[⟨1, "a", "p"⟩, ⟨2, "b", "q"⟩]⟩

/-- Ready state holding `c7Store` with an empty selection present. -/
def c7State : AppState :=
  ⟨some Context.projectList, some c7Store, none, some ⟨[]⟩, none⟩

/-- Witness for C7 amended on the two-project store, deselecting id 1. -/
theorem C7_witness :
    ∃ s₁ s₂ : AppState,
      (App.loaded c7State).run (selectEachMsgs (c7Store.projects.map Project.id) (Except.ok ()))
        = some (App.loaded s₁) ∧
      s₁.all_projects_selected = true ∧
      (App.loaded s₁).update (Message.projectListProjectSelected false 1) (Except.ok ())
        = some (App.loaded s₂) ∧
      s₂.all_projects_selected = false :=
  C7_amended_select_deselect c7State c7Store ⟨[]⟩ (Except.ok ()) 1 rfl rfl
    (by decide) (by decide)
